import Mathlib

/-!
Shallow embedding of the `imxrt-dma` driver core (i.MX RT eDMA driver).

The Rust sources are embedded as executable Lean definitions:

* `Transfer` and its constructors come from `src/channel.rs`;
* the eDMA channel operations (`channel_enable`, `channel_is_error`, …) come
  from `src/channel.rs`, acting on an explicit `DmaState` record that models
  the controller's register file (register write semantics — "write the channel
  number to SERQ to set that channel's ERQ bit", and so on — follow the
  external register interface described in the spec, §6);
* the eDMA3/eDMA4 generation operations come from `src/channel/edma3_edma4.rs`
  and `src/ral.rs`;
* the orchestration helpers `peripheral_transfer` / `peripheral_receive` come
  from `src/lib.rs`.

Machine integers are modelled as `Nat` bit patterns with explicit `% 2 ^ w`
wrapping where the Rust code can wrap, and two's-complement reinterpretation
(`toSigned`) where the code casts to a signed type.
-/

set_option maxRecDepth 8192

/-- Two's-complement reinterpretation of the low `w` bits of `n` as an integer.
Models Rust `as i16` / `as i32` casts of unsigned values. -/
def toSigned (w : Nat) (n : Nat) : Int :=
  if n % 2 ^ w < 2 ^ (w - 1) then ((n % 2 ^ w : Nat) : Int)
  else ((n % 2 ^ w : Nat) : Int) - ((2 ^ w : Nat) : Int)

/-- Rust `usize::count_ones`: the number of set bits of `n`. -/
def count_ones (n : Nat) : Nat :=
  if n = 0 then 0 else n % 2 + count_ones (n / 2)
decreasing_by simp_wf; omega

/-- Rust `usize::is_power_of_two`, implemented as in the Rust core library:
`count_ones(n) == 1`. -/
def rust_is_power_of_two (n : Nat) : Bool :=
  count_ones n == 1

/-- Rust `u32::leading_zeros` for a value `n < 2 ^ 32`. -/
def leading_zeros32 (n : Nat) : Nat :=
  if n = 0 then 32 else 31 - Nat.log2 n

/-- Rust `as u16` cast of a usize value. -/
def as_u16 (n : Nat) : Nat := n % 2 ^ 16

/-- `Transfer<E>` from `src/channel.rs`. The element type `E` is represented
by its size in bytes (a parameter of the constructor functions below);
`address` is the numeric value of the `*const E` pointer. -/
structure Transfer where
  address : Nat
  offset : Int
  modulo : Nat
  last_address_adjustment : Int
deriving DecidableEq

/-- `Transfer::hardware` (src/channel.rs): stride 0, modulo 0, end adjustment 0. -/
def transfer_hardware (address : Nat) : Transfer :=
  { address := address
    offset := 0
    modulo := 0
    last_address_adjustment := 0 }

/-- `Transfer::buffer_linear` (src/channel.rs). `sz` is `mem::size_of::<E>()`.
The offset is `size_of::<E>() as i16`; the last address adjustment is
`((len * size_of::<E>()) as i32).wrapping_neg()`: the usize product wraps to
32 bits, is reinterpreted as `i32`, and is then negated with wrapping. -/
def buffer_linear (sz : Nat) (ptr : Nat) (len : Nat) : Transfer :=
  { address := ptr
    offset := toSigned 16 sz
    modulo := 0
    last_address_adjustment := toSigned 32 ((2 ^ 32 - (len * sz) % 2 ^ 32) % 2 ^ 32) }

/-- `Transfer::buffer_circular` (src/channel.rs). Returns `none` unless
`capacity` is a power of two; otherwise the modulo field is
`31 - (capacity * size_of::<E>()).leading_zeros()`, with the usize product
wrapped to 32 bits. (The `u16` subtraction is modelled by truncated `Nat`
subtraction; in the Rust code it cannot underflow unless the product wraps
to zero, where debug Rust would panic.) -/
def buffer_circular (sz : Nat) (start : Nat) (capacity : Nat) : Option Transfer :=
  if !rust_is_power_of_two capacity then none
  else
    let modulo := 31 - leading_zeros32 ((capacity * sz) % 2 ^ 32)
    some
      { address := start
        offset := toSigned 16 sz
        modulo := modulo
        last_address_adjustment := 0 }

/-- Pointwise update of an index-to-value map (used for register arrays). -/
def upd {α : Type} (f : Nat → α) (i : Nat) (v : α) : Nat → α :=
  fun j => if j = i then v else f j

/-- Set bit `i` of a register value (hardware semantics of the `SERQ`-style
set registers: writing a channel number sets that channel's bit, spec §6). -/
def setBit (r : Nat) (i : Nat) : Nat := r ||| (1 <<< i)

/-- Clear bit `i` of a 32-bit register value (hardware semantics of the
`CERQ`/`CERR`-style clear registers, spec §6). -/
def clrBit (r : Nat) (i : Nat) : Nat := r &&& ((2 ^ 32 - 1) ^^^ (1 <<< i))

/-- One transfer control descriptor (`ral::tcd::RegisterBlock`,
src/ral/tcd.rs). Unsigned registers are `Nat` bit patterns; the registers the
hardware treats as signed (`SOFF`, `SLAST`, `DOFF`, `DLAST_SGA`) are `Int`. -/
structure TcdState where
  SADDR : Nat
  SOFF : Int
  DATTR : Nat
  SATTR : Nat
  NBYTES : Nat
  SLAST : Int
  DADDR : Nat
  DOFF : Int
  CITER : Nat
  DLAST_SGA : Int
  CSR : Nat
  BITER : Nat
deriving DecidableEq

/-- `ral::tcd::RegisterBlock::reset` (src/ral/tcd.rs): writes zero to every
TCD register, and nothing else. -/
def tcd_reset : TcdState :=
  { SADDR := 0, SOFF := 0, DATTR := 0, SATTR := 0, NBYTES := 0, SLAST := 0
    DADDR := 0, DOFF := 0, CITER := 0, DLAST_SGA := 0, CSR := 0, BITER := 0 }

/-- The eDMA controller register file reachable from a `Channel`
(src/ral/dma.rs `edma::RegisterBlock` plus the src/ral/dmamux.rs
multiplexer block). `TCD` and `chcfg` are the per-channel register arrays. -/
structure DmaState where
  ES : Nat
  ERQ : Nat
  INT : Nat
  ERR : Nat
  HRS : Nat
  TCD : Nat → TcdState
  chcfg : Nat → Nat

/-- `ErrorStatus` (src/lib.rs): an immutable copy of the error status
register value. -/
structure ErrorStatus where
  es : Nat
deriving DecidableEq

/-- `dmamux::RegisterBlock::ENBL` (src/ral/dmamux.rs). -/
def ENBL : Nat := 1 <<< 31

/-- `dmamux::RegisterBlock::TRIG` (src/ral/dmamux.rs). -/
def TRIG : Nat := 1 <<< 30

/-- `dmamux::RegisterBlock::A_ON` (src/ral/dmamux.rs). -/
def A_ON : Nat := 1 <<< 29

/-- Modelled from the spec: the `Element::DATA_TRANSFER_ID` constant of the
element trait. `src/lib.rs` declares `mod element;` but `element.rs` is not
among the given sources. Spec §6: the low 3 attribute bits are the element
size code; for the supported element sizes (1, 2, 4 bytes) the code is
`log2` of the size in bytes. -/
def data_transfer_id (sz : Nat) : Nat := Nat.log2 sz

/-- `Channel::new` (src/channel.rs): panics (here: `none`) unless
`index < 32`. -/
structure ChannelHandle where
  index : Nat
deriving DecidableEq

def channel_new (index : Nat) : Option ChannelHandle :=
  if index < 32 then some { index := index } else none

/-- `Channel::channel` (src/channel.rs): returns the stored index. -/
def channel_number (c : ChannelHandle) : Nat := c.index

/-- `Channel::reset` (src/channel.rs): `self.tcd().reset()` — resets only
channel `i`'s TCD block. -/
def channel_reset (i : Nat) (s : DmaState) : DmaState :=
  { s with TCD := upd s.TCD i tcd_reset }

/-- `Channel::enable` (src/channel.rs): `SERQ.write(index)` sets the
channel's ERQ bit. -/
def channel_enable (i : Nat) (s : DmaState) : DmaState :=
  { s with ERQ := setBit s.ERQ i }

/-- `Channel::disable` (src/channel.rs): `CERQ.write(index)` clears the
channel's ERQ bit. -/
def channel_disable (i : Nat) (s : DmaState) : DmaState :=
  { s with ERQ := clrBit s.ERQ i }

/-- `Channel::is_enabled` (src/channel.rs): `ERQ.read() & (1 << index) != 0`. -/
def channel_is_enabled (i : Nat) (s : DmaState) : Bool :=
  (s.ERQ &&& (1 <<< i)) != 0

/-- `Channel::is_error` (src/channel.rs): `ERR.read() & (1 << index) != 0`. -/
def channel_is_error (i : Nat) (s : DmaState) : Bool :=
  (s.ERR &&& (1 <<< i)) != 0

/-- `Channel::clear_error` (src/channel.rs): `CERR.write(index)` clears the
channel's ERR bit. -/
def channel_clear_error (i : Nat) (s : DmaState) : DmaState :=
  { s with ERR := clrBit s.ERR i }

/-- `Channel::is_hardware_signaling` (src/channel.rs):
`HRS.read() & (1 << index) != 0`. -/
def channel_is_hardware_signaling (i : Nat) (s : DmaState) : Bool :=
  (s.HRS &&& (1 <<< i)) != 0

/-- `Channel::is_active` (src/channel.rs): reads the `ACTIVE` field (bit 6)
of the channel's TCD `CSR` register and compares with 1. -/
def channel_is_active (i : Nat) (s : DmaState) : Bool :=
  (((s.TCD i).CSR &&& (1 <<< 6)) >>> 6) == 1

/-- `Channel::is_complete` (src/channel.rs): reads the `DONE` field (bit 7)
of the channel's TCD `CSR` register and compares with 1. -/
def channel_is_complete (i : Nat) (s : DmaState) : Bool :=
  (((s.TCD i).CSR &&& (1 <<< 7)) >>> 7) == 1

/-- `Channel::error_status` (src/channel.rs): reads the controller's global
`ES` register; the channel index plays no part. -/
def channel_error_status (s : DmaState) : ErrorStatus :=
  { es := s.ES }

/-- `Channel::set_minor_loop_bytes` (src/channel.rs): 32-bit store on
`NBYTES`. -/
def channel_set_minor_loop_bytes (i : Nat) (nbytes : Nat) (s : DmaState) : DmaState :=
  { s with TCD := upd s.TCD i { s.TCD i with NBYTES := nbytes % 2 ^ 32 } }

/-- `Channel::set_minor_loop_elements` (src/channel.rs):
`set_minor_loop_bytes((size_of::<E>() * len) as u32)`. -/
def channel_set_minor_loop_elements (sz : Nat) (i : Nat) (len : Nat) (s : DmaState) : DmaState :=
  channel_set_minor_loop_bytes i (sz * len) s

/-- `Channel::set_transfer_iterations` (src/channel.rs): writes `iterations`
to both `CITER` and `BITER`. -/
def channel_set_transfer_iterations (i : Nat) (iterations : Nat) (s : DmaState) : DmaState :=
  let t := { s.TCD i with CITER := iterations % 2 ^ 16, BITER := iterations % 2 ^ 16 }
  { s with TCD := upd s.TCD i t }

/-- `Channel::set_source_transfer` (src/channel.rs): writes `SADDR`
(`address as u32`), `SOFF`, the `SSIZE`/`SMOD` fields of `SATTR`
(read-modify-write with masks `0b111` at offset 0 and `0b11111` at offset 3),
and `SLAST`. -/
def channel_set_source_transfer (sz : Nat) (i : Nat) (t : Transfer) (s : DmaState) : DmaState :=
  let old := s.TCD i
  let tcd :=
    { old with
      SADDR := t.address % 2 ^ 32
      SOFF := t.offset
      SATTR := (old.SATTR &&& (0xFF ^^^ (0b111 ||| (0b11111 <<< 3))))
        ||| ((data_transfer_id sz <<< 0) &&& 0b111)
        ||| ((t.modulo <<< 3) &&& (0b11111 <<< 3))
      SLAST := t.last_address_adjustment }
  { s with TCD := upd s.TCD i tcd }

/-- `Channel::set_destination_transfer` (src/channel.rs): as
`set_source_transfer`, on `DADDR`/`DOFF`/`DATTR`/`DLAST_SGA`. -/
def channel_set_destination_transfer (sz : Nat) (i : Nat) (t : Transfer) (s : DmaState) : DmaState :=
  let old := s.TCD i
  let tcd :=
    { old with
      DADDR := t.address % 2 ^ 32
      DOFF := t.offset
      DATTR := (old.DATTR &&& (0xFF ^^^ (0b111 ||| (0b11111 <<< 3))))
        ||| ((data_transfer_id sz <<< 0) &&& 0b111)
        ||| ((t.modulo <<< 3) &&& (0b11111 <<< 3))
      DLAST_SGA := t.last_address_adjustment }
  { s with TCD := upd s.TCD i tcd }

/-- `ChannelConfiguration` (src/channel.rs). -/
inductive ChannelConfiguration where
  | Off : ChannelConfiguration
  | Enable (source : Nat) (periodic : Bool) : ChannelConfiguration
  | AlwaysOn : ChannelConfiguration
deriving DecidableEq

/-- `Channel::set_channel_configuration` (src/channel.rs), identical logic to
`set_channel_configuration_impl` in src/channel/edma.rs: writes the channel's
multiplexer configuration register. The `assert!(self.channel() < 4)` for a
periodic `Enable` is modelled by returning `none` (panic). -/
def channel_set_channel_configuration (i : Nat) (c : ChannelConfiguration) (s : DmaState) :
    Option DmaState :=
  match c with
  | .Off => some { s with chcfg := upd s.chcfg i 0 }
  | .Enable source periodic =>
    let v := source ||| ENBL
    if periodic then
      if i < 4 then some { s with chcfg := upd s.chcfg i (v ||| TRIG) }
      else none
    else some { s with chcfg := upd s.chcfg i v }
  | .AlwaysOn => some { s with chcfg := upd s.chcfg i (ENBL ||| A_ON) }

/-- Per-channel register block of the eDMA3/eDMA4 generations
(`ral::tcd::edma34::RegisterBlock`, src/ral/tcd.rs): channel CSR, channel
error status `ES`, channel interrupt, bus/priority/mux registers, then the
common TCD. -/
structure Edma34ChanState where
  CSR : Nat
  ES : Nat
  INT : Nat
  SBR : Nat
  PRI : Nat
  MUX : Nat
  TCD : TcdState

/-- eDMA3 controller registers (`ral::dma::edma3::RegisterBlock`,
src/ral/dma.rs): management page CSR/ES/INT/HRS plus the per-channel
blocks. -/
structure Edma3State where
  CSR : Nat
  ES : Nat
  INT : Nat
  HRS : Nat
  TCD34 : Nat → Edma34ChanState

/-- eDMA4 controller registers (`ral::dma::edma4::RegisterBlock`,
src/ral/dma.rs): as eDMA3, but interrupt and hardware-request status are
split across low/high halves for 64 channels. -/
structure Edma4State where
  CSR : Nat
  ES : Nat
  INT_LOW : Nat
  INT_HIGH : Nat
  HRS_LOW : Nat
  HRS_HIGH : Nat
  TCD34 : Nat → Edma34ChanState

/-- `ral::Kind` restricted to the eDMA3/eDMA4 generations
(src/ral.rs, `edma34` feature). -/
inductive Edma34Kind where
  | eDMA3 (s : Edma3State)
  | eDMA4 (s : Edma4State)

/-- `Channel::error_status_impl` for eDMA3/eDMA4
(src/channel/edma3_edma4.rs): reads `self.channel_registers().ES`, the
channel's own `CHn_ES` register. -/
def edma34_error_status (i : Nat) : Edma34Kind → ErrorStatus
  | .eDMA3 s => { es := (s.TCD34 i).ES }
  | .eDMA4 s => { es := (s.TCD34 i).ES }

/-- `Channel::is_hardware_signaling_impl` for eDMA3/eDMA4
(src/channel/edma3_edma4.rs, same dispatch as `Kind::is_hardware_signaling`
in src/ral.rs): eDMA3 reads bit `i` of the single `HRS` register; eDMA4
reads bit `i` of `HRS_LOW` when `i < 32` and bit `i - 32` of `HRS_HIGH` when
`32 <= i < 64`. The `unreachable!` arm is modelled as `none`. -/
def edma34_is_hardware_signaling (i : Nat) : Edma34Kind → Option Bool
  | .eDMA3 s => some ((s.HRS &&& (1 <<< i)) != 0)
  | .eDMA4 s =>
    if i < 32 then some ((s.HRS_LOW &&& (1 <<< i)) != 0)
    else if 32 ≤ i ∧ i < 64 then some ((s.HRS_HIGH &&& (1 <<< (i - 32))) != 0)
    else none

/-- `Index<usize> for ChannelPriorityRegisters` (src/ral/dma.rs): the
priority register for `channel` lives at index
`4 * (channel / 4) + (3 - channel % 4)`. -/
def dchpri_index (channel : Nat) : Nat :=
  4 * (channel / 4) + (3 - channel % 4)

/-- One observable step taken by the orchestration helpers in src/lib.rs,
recorded at the granularity of the source's own calls. -/
inductive Event where
  | enablePeripheral : Event
  | setTriggerFromHardware (i : Nat) (source : Option Nat) : Event
  | setSourceTransfer (i : Nat) (t : Transfer) : Event
  | setDestinationTransfer (i : Nat) (t : Transfer) : Event
  | setMinorLoopElements (i : Nat) (len : Nat) : Event
  | setTransferIterations (i : Nat) (iterations : Nat) : Event
  | compilerFence : Event
  | enable (i : Nat) : Event
  | disable (i : Nat) : Event
  | readErrorStatus (i : Nat) : Event
  | clearError (i : Nat) : Event
deriving DecidableEq

/-- True exactly on `Event.enable` steps. -/
def isEnableEvent : Event → Bool
  | .enable _ => true
  | _ => false

/-- Modelled from the spec: `Channel::set_trigger_from_hardware`, which
src/lib.rs calls but whose definition is not among the given sources.
Per spec §4.5 and §3 it configures the channel's request multiplexer for
hardware triggering: `Some(source)` enables the mux with that request source
and no periodic trigger (the `Enable { source, periodic: false }`
configuration of `set_channel_configuration`), `None` disables the mux. -/
def set_trigger_from_hardware (i : Nat) (source : Option Nat) (s : DmaState) : DmaState :=
  match source with
  | some src => { s with chcfg := upd s.chcfg i (src ||| ENBL) }
  | none => { s with chcfg := upd s.chcfg i 0 }

/-- `peripheral_transfer` (src/lib.rs). Parameters stand for the Rust
arguments: `sz` is `size_of::<E>()`, `i` the channel index, `sig` the
peripheral's `destination_signal()`, `destAddr` its `destination()` register
address, `srcPtr`/`srcLen` the source slice. The returned event list records
the helper's calls in source order (`enable_destination` and the compiler
fence touch no DMA register, so they appear only as events). -/
def peripheral_transfer (sz i sig destAddr srcPtr srcLen : Nat) (s0 : DmaState) :
    Except ErrorStatus Unit × DmaState × List Event :=
  let tx := buffer_linear sz srcPtr srcLen
  let rx := transfer_hardware destAddr
  let s1 := set_trigger_from_hardware i (some sig) s0
  let s2 := channel_set_source_transfer sz i tx s1
  let s3 := channel_set_destination_transfer sz i rx s2
  let s4 := channel_set_minor_loop_elements sz i 1 s3
  let s5 := channel_set_transfer_iterations i (as_u16 srcLen) s4
  let s6 := channel_enable i s5
  let setup : List Event :=
    [.enablePeripheral, .setTriggerFromHardware i (some sig), .setSourceTransfer i tx,
     .setDestinationTransfer i rx, .setMinorLoopElements i 1,
     .setTransferIterations i (as_u16 srcLen), .compilerFence, .enable i]
  if channel_is_error i s6 then
    let s7 := channel_disable i s6
    let es := channel_error_status s7
    let s8 := channel_clear_error i s7
    (.error es, s8, setup ++ [.disable i, .readErrorStatus i, .clearError i])
  else
    (.ok (), s6, setup)

/-- `peripheral_receive` (src/lib.rs): symmetric to `peripheral_transfer`,
with the hardware register as the source side and the linear buffer as the
destination side. -/
def peripheral_receive (sz i sig srcAddr destPtr destLen : Nat) (s0 : DmaState) :
    Except ErrorStatus Unit × DmaState × List Event :=
  let tx := transfer_hardware srcAddr
  let rx := buffer_linear sz destPtr destLen
  let s1 := set_trigger_from_hardware i (some sig) s0
  let s2 := channel_set_source_transfer sz i tx s1
  let s3 := channel_set_destination_transfer sz i rx s2
  let s4 := channel_set_minor_loop_elements sz i 1 s3
  let s5 := channel_set_transfer_iterations i (as_u16 destLen) s4
  let s6 := channel_enable i s5
  let setup : List Event :=
    [.enablePeripheral, .setTriggerFromHardware i (some sig), .setSourceTransfer i tx,
     .setDestinationTransfer i rx, .setMinorLoopElements i 1,
     .setTransferIterations i (as_u16 destLen), .compilerFence, .enable i]
  if channel_is_error i s6 then
    let s7 := channel_disable i s6
    let es := channel_error_status s7
    let s8 := channel_clear_error i s7
    (.error es, s8, setup ++ [.disable i, .readErrorStatus i, .clearError i])
  else
    (.ok (), s6, setup)

theorem count_ones_eq_zero_iff (n : Nat) : count_ones n = 0 ↔ n = 0 := by
  induction n using Nat.strong_induction_on with
  | _ n ih =>
    rw [count_ones]
    by_cases h : n = 0
    · simp [h]
    · have h2 : n / 2 < n := Nat.div_lt_self (Nat.pos_of_ne_zero h) (by omega)
      have ihh := ih (n / 2) h2
      simp only [h, if_false]
      constructor
      · intro hsum
        have hc0 : count_ones (n / 2) = 0 := by omega
        have hd0 : n / 2 = 0 := ihh.mp hc0
        omega
      · intro h0
        exact h0.elim

theorem count_ones_eq_one_iff (n : Nat) : count_ones n = 1 ↔ ∃ k, n = 2 ^ k := by
  induction n using Nat.strong_induction_on with
  | _ n ih =>
    rw [count_ones]
    by_cases h : n = 0
    · subst h
      simp only [if_pos rfl]
      constructor
      · intro hc
        exact absurd hc (by decide)
      · rintro ⟨k, hk⟩
        have : 0 < 2 ^ k := pow_pos (by norm_num) k
        omega
    · have h2 : n / 2 < n := Nat.div_lt_self (Nat.pos_of_ne_zero h) (by omega)
      have ihh := ih (n / 2) h2
      have hz := count_ones_eq_zero_iff (n / 2)
      simp only [h, if_false]
      rcases Nat.even_or_odd n with he | ho
      · have hm : n % 2 = 0 := Nat.even_iff.mp he
        rw [hm, Nat.zero_add, ihh]
        constructor
        · rintro ⟨k, hk⟩
          refine ⟨k + 1, ?_⟩
          rw [pow_succ]
          omega
        · rintro ⟨k, hk⟩
          cases k with
          | zero => omega
          | succ k' =>
            refine ⟨k', ?_⟩
            rw [pow_succ] at hk
            omega
      · have hm : n % 2 = 1 := Nat.odd_iff.mp ho
        rw [hm]
        constructor
        · intro hc
          have hc0 : count_ones (n / 2) = 0 := by omega
          have : n / 2 = 0 := hz.mp hc0
          exact ⟨0, by omega⟩
        · rintro ⟨k, hk⟩
          cases k with
          | zero =>
            have h1 : n = 1 := by simpa using hk
            have : n / 2 = 0 := by omega
            have := hz.mpr this
            omega
          | succ k' =>
            exfalso
            rw [pow_succ] at hk
            omega

theorem rust_is_power_of_two_iff (n : Nat) :
    rust_is_power_of_two n = true ↔ ∃ k, n = 2 ^ k := by
  unfold rust_is_power_of_two
  rw [beq_iff_eq]
  exact count_ones_eq_one_iff n

theorem land_two_pow_ne_zero_iff (x i : Nat) :
    x &&& 2 ^ i ≠ 0 ↔ x.testBit i = true := by
  constructor
  · intro h
    obtain ⟨j, hj⟩ := Nat.ne_zero_implies_bit_true h
    rw [Nat.testBit_and] at hj
    have hji : i = j := by
      by_contra hne
      rw [Nat.testBit_two_pow_of_ne hne] at hj
      simp at hj
    subst hji
    exact (Bool.and_eq_true _ _ |>.mp hj).1
  · intro h h0
    have hb : (x &&& 2 ^ i).testBit i = false := by
      rw [h0]; exact Nat.zero_testBit i
    rw [Nat.testBit_and, h, Nat.testBit_two_pow_self] at hb
    simp at hb

theorem land_shiftLeft_ne_zero (x i : Nat) :
    ((x &&& (1 <<< i)) != 0) = x.testBit i := by
  have h1 : (1 : Nat) <<< i = 2 ^ i := by rw [Nat.shiftLeft_eq, Nat.one_mul]
  rw [h1]
  cases hb : x.testBit i
  · have hz : x &&& 2 ^ i = 0 := by
      by_contra h0
      have := (land_two_pow_ne_zero_iff x i).mp h0
      rw [hb] at this
      exact Bool.false_ne_true this
    simp [hz]
  · have hnz : x &&& 2 ^ i ≠ 0 := (land_two_pow_ne_zero_iff x i).mpr hb
    simp [bne_iff_ne, hnz]

theorem testBit_setBit_self (r i : Nat) : (setBit r i).testBit i = true := by
  unfold setBit
  rw [Nat.shiftLeft_eq, Nat.one_mul, Nat.testBit_or, Nat.testBit_two_pow_self]
  exact Bool.or_true _

theorem testBit_clrBit_self (r i : Nat) (h : i < 32) :
    (clrBit r i).testBit i = false := by
  unfold clrBit
  rw [Nat.shiftLeft_eq, Nat.one_mul, Nat.testBit_and, Nat.testBit_xor,
    Nat.testBit_two_pow_sub_one, Nat.testBit_two_pow_self]
  simp [h]

theorem toSigned16_of_lt (n : Nat) (h : n < 2 ^ 15) : toSigned 16 n = (n : Int) := by
  unfold toSigned
  split <;> omega

theorem toSigned32_wrapping_neg_of_le (p : Nat) (h : p ≤ 2 ^ 31) :
    toSigned 32 ((2 ^ 32 - p % 2 ^ 32) % 2 ^ 32) = -(p : Int) := by
  unfold toSigned
  split <;> omega

/-- Claim C1: for every element size and every capacity, `buffer_circular`
returns a descriptor exactly when the capacity is a power of two, and the
returned descriptor's wraparound bits equal `31` minus the count of leading
zeros of capacity times element size (that is, `log2` of the product), its
stride is the element size, and its end adjustment is `0`. Stated for element
sizes and capacities within the machine's range (`sz < 2 ^ 15`,
`capacity * sz < 2 ^ 32`, satisfied by all supported element types). -/
theorem buffer_circular_characterization (sz start capacity : Nat)
    (hsz : 0 < sz) (hsz16 : sz < 2 ^ 15) (hov : capacity * sz < 2 ^ 32) :
    ((buffer_circular sz start capacity).isSome ↔ ∃ k, capacity = 2 ^ k) ∧
    ∀ t, buffer_circular sz start capacity = some t →
      t.modulo = 31 - leading_zeros32 (capacity * sz) ∧
      t.modulo = Nat.log2 (capacity * sz) ∧
      t.offset = (sz : Int) ∧
      t.last_address_adjustment = 0 := by
  have hp := rust_is_power_of_two_iff capacity
  cases hb : rust_is_power_of_two capacity
  · rw [hb] at hp
    have hnp : ¬ ∃ k, capacity = 2 ^ k := fun hex => by simpa using hp.mpr hex
    constructor
    · unfold buffer_circular
      rw [hb]
      simpa using hnp
    · intro t ht
      unfold buffer_circular at ht
      rw [hb] at ht
      simp at ht
  · rw [hb] at hp
    obtain ⟨k, hk⟩ := hp.mp rfl
    have hcap : 0 < capacity := by
      rw [hk]
      exact pow_pos (by norm_num) k
    have hprod : 0 < capacity * sz := Nat.mul_pos hcap hsz
    have hmod : capacity * sz % 2 ^ 32 = capacity * sz := Nat.mod_eq_of_lt hov
    have hlog : Nat.log2 (capacity * sz) < 32 := by
      rw [Nat.log2_eq_log_two]
      exact Nat.log_lt_of_lt_pow (by omega) hov
    have hlz : leading_zeros32 (capacity * sz) = 31 - Nat.log2 (capacity * sz) := by
      unfold leading_zeros32
      rw [if_neg (by omega)]
    constructor
    · unfold buffer_circular
      rw [hb]
      simpa using ⟨k, hk⟩
    · intro t ht
      unfold buffer_circular at ht
      rw [hb] at ht
      simp at ht
      subst ht
      have hmodn : capacity * sz % 4294967296 = capacity * sz := by omega
      refine ⟨?_, ?_, toSigned16_of_lt sz hsz16, rfl⟩
      · show 31 - leading_zeros32 (capacity * sz % 4294967296) =
          31 - leading_zeros32 (capacity * sz)
        rw [hmodn]
      · show 31 - leading_zeros32 (capacity * sz % 4294967296) =
          Nat.log2 (capacity * sz)
        rw [hmodn, hlz]
        omega

/-- Witness for claim C1 at element size 4 and capacity 8. -/
theorem buffer_circular_characterization_witness :
    (0 < 4 ∧ (4 : Nat) < 2 ^ 15 ∧ 8 * 4 < 2 ^ 32) ∧
    (((buffer_circular 4 0 8).isSome ↔ ∃ k, (8 : Nat) = 2 ^ k) ∧
      ∀ t, buffer_circular 4 0 8 = some t →
        t.modulo = 31 - leading_zeros32 (8 * 4) ∧
        t.modulo = Nat.log2 (8 * 4) ∧
        t.offset = ((4 : Nat) : Int) ∧
        t.last_address_adjustment = 0) :=
  ⟨⟨by decide, by decide, by decide⟩,
    buffer_circular_characterization 4 0 8 (by decide) (by decide) (by decide)⟩

/-- Counterexample to claim C4 as stated: the end adjustment is computed as
`((len * size_of::<E>()) as i32).wrapping_neg()`, so it is not the exact
integer negation of the byte count for every length. At element size 1 and
length `2 ^ 31 + 1` the stored end adjustment is `2 ^ 31 - 1`, not
`-(2 ^ 31 + 1)`. -/
theorem buffer_linear_end_adjustment_not_exact_everywhere :
    (buffer_linear 1 0 (2 ^ 31 + 1)).last_address_adjustment ≠
      -(((2 ^ 31 + 1 : Nat) : Int) * ((1 : Nat) : Int)) := by decide

/-- Claim C4 (amended): the descriptor built by `buffer_linear` has stride
equal to the element size and end adjustment exactly `-(len * sz)` for every
length with `len * sz ≤ 2 ^ 31` (beyond that the `as i32` cast wraps; within
it, which covers every length a valid Rust slice can have, the adjustment
returns the advanced address to its start). -/
theorem buffer_linear_end_adjustment (sz ptr len : Nat)
    (hsz : 0 < sz) (hsz16 : sz < 2 ^ 15) (hov : len * sz ≤ 2 ^ 31) :
    (buffer_linear sz ptr len).offset = (sz : Int) ∧
    (buffer_linear sz ptr len).last_address_adjustment = -((len : Int) * (sz : Int)) ∧
    (ptr : Int) + (len : Int) * (sz : Int) +
      (buffer_linear sz ptr len).last_address_adjustment = (ptr : Int) := by
  have h1 : (buffer_linear sz ptr len).offset = toSigned 16 sz := rfl
  have h2 : (buffer_linear sz ptr len).last_address_adjustment =
      toSigned 32 ((2 ^ 32 - (len * sz) % 2 ^ 32) % 2 ^ 32) := rfl
  have h3 := toSigned32_wrapping_neg_of_le (len * sz) hov
  have h4 : ((len * sz : Nat) : Int) = (len : Int) * (sz : Int) := by push_cast; ring
  refine ⟨by rw [h1, toSigned16_of_lt sz hsz16], ?_, ?_⟩
  · rw [h2, h3, h4]
  · rw [h2, h3, h4]
    ring

/-- Witness for the amended claim C4 at element size 4, length 8. -/
theorem buffer_linear_end_adjustment_witness :
    (0 < 4 ∧ (4 : Nat) < 2 ^ 15 ∧ 8 * 4 ≤ 2 ^ 31) ∧
    ((buffer_linear 4 4096 8).offset = ((4 : Nat) : Int) ∧
     (buffer_linear 4 4096 8).last_address_adjustment =
       -(((8 : Nat) : Int) * ((4 : Nat) : Int)) ∧
     ((4096 : Nat) : Int) + ((8 : Nat) : Int) * ((4 : Nat) : Int) +
       (buffer_linear 4 4096 8).last_address_adjustment = ((4096 : Nat) : Int)) :=
  ⟨⟨by decide, by decide, by decide⟩,
    buffer_linear_end_adjustment 4 4096 8 (by decide) (by decide) (by decide)⟩

/-- An eDMA register state with channel 0's `ERR` and `ERQ` bits set. -/
def dma_state_err0 : DmaState :=
  { ES := 0, ERQ := 1, INT := 0, ERR := 1, HRS := 0
    TCD := fun _ => tcd_reset, chcfg := fun _ => 0 }

/-- An eDMA register state with everything clear. -/
def dma_state_zero : DmaState :=
  { ES := 0, ERQ := 0, INT := 0, ERR := 0, HRS := 0
    TCD := fun _ => tcd_reset, chcfg := fun _ => 0 }

/-- An eDMA3/eDMA4 per-channel block with everything clear. -/
def edma34_chan_zero : Edma34ChanState :=
  { CSR := 0, ES := 0, INT := 0, SBR := 0, PRI := 0, MUX := 0, TCD := tcd_reset }

/-- An eDMA3 state whose global `ES` register and per-channel `CHn_ES`
registers hold different values. -/
def edma3_state_distinct : Edma3State :=
  { CSR := 0, ES := 5, INT := 0, HRS := 0
    TCD34 := fun _ => { edma34_chan_zero with ES := 7 } }

/-- An eDMA3 state with bit 3 of `HRS` set. -/
def edma3_state_hrs : Edma3State :=
  { CSR := 0, ES := 0, INT := 0, HRS := 8
    TCD34 := fun _ => edma34_chan_zero }

/-- An eDMA4 state with bit 3 of `HRS_LOW` and bit 8 of `HRS_HIGH` set. -/
def edma4_state_hrs : Edma4State :=
  { CSR := 0, ES := 0, INT_LOW := 0, INT_HIGH := 0, HRS_LOW := 8, HRS_HIGH := 256
    TCD34 := fun _ => edma34_chan_zero }

/-- Counterexample to claim C3 as stated: `reset()` writes only the
channel's TCD registers, so with channel 0's `ERR` and `ERQ` bits set
beforehand, `is_error()` and `is_enabled()` still read true immediately
after `reset()` — not all four predicates become false. -/
theorem reset_does_not_clear_err_erq :
    channel_is_error 0 (channel_reset 0 dma_state_err0) = true ∧
    channel_is_enabled 0 (channel_reset 0 dma_state_err0) = true := by decide

/-- Claim C3 (amended): for every channel and prior state, `reset()` makes
`is_active()` and `is_complete()` read false, while `is_error()` and
`is_enabled()` read controller registers that `reset()` does not touch, so
their values are exactly what they were before the reset. -/
theorem reset_status_predicates (i : Nat) (s : DmaState) :
    channel_is_active i (channel_reset i s) = false ∧
    channel_is_complete i (channel_reset i s) = false ∧
    channel_is_error i (channel_reset i s) = channel_is_error i s ∧
    channel_is_enabled i (channel_reset i s) = channel_is_enabled i s := by
  refine ⟨?_, ?_, rfl, rfl⟩
  · simp [channel_is_active, channel_reset, upd, tcd_reset]
  · simp [channel_is_complete, channel_reset, upd, tcd_reset]

/-- Claim C9: `Channel::new(i)` succeeds, with `channel()` reporting `i`,
exactly when `i < 32`; for every `i ≥ 32` — including `i = 32` itself,
despite the doc comment's "greater than 32" — construction panics
(modelled as `none`). -/
theorem channel_new_range (i : Nat) :
    ((channel_new i).isSome ↔ i < 32) ∧
    ∀ c, channel_new i = some c → channel_number c = i := by
  constructor
  · unfold channel_new
    by_cases h : i < 32 <;> simp [h]
  · intro c hc
    unfold channel_new at hc
    by_cases h : i < 32
    · rw [if_pos h] at hc
      cases hc
      rfl
    · rw [if_neg h] at hc
      cases hc

/-- Witness for claim C9 at indices 5 (valid) and 32 (panics). -/
theorem channel_new_range_witness :
    (((channel_new 5).isSome ↔ 5 < 32) ∧
      ∀ c, channel_new 5 = some c → channel_number c = 5) ∧
    ((channel_new 32).isSome ↔ 32 < 32) ∧
    ∀ c, channel_new 32 = some c → channel_number c = 32 :=
  ⟨channel_new_range 5, channel_new_range 32⟩

/-- Claim C10: the channel-priority index map
`4 * (channel / 4) + (3 - channel % 4)` stays within `[0, 32)` on `[0, 32)`,
is an involution there, and therefore sends distinct channels to distinct
priority registers. -/
theorem dchpri_index_involution (c : Nat) (h : c < 32) :
    dchpri_index c < 32 ∧ dchpri_index (dchpri_index c) = c ∧
    ∀ d, d < 32 → dchpri_index c = dchpri_index d → c = d := by
  have hmain : ∀ x, x < 32 → dchpri_index x < 32 ∧ dchpri_index (dchpri_index x) = x := by
    decide
  obtain ⟨h1, h2⟩ := hmain c h
  refine ⟨h1, h2, ?_⟩
  intro d hd he
  calc c = dchpri_index (dchpri_index c) := h2.symm
    _ = dchpri_index (dchpri_index d) := by rw [he]
    _ = d := (hmain d hd).2

/-- Witness for claim C10 at channel 5. -/
theorem dchpri_index_involution_witness :
    5 < 32 ∧ (dchpri_index 5 < 32 ∧ dchpri_index (dchpri_index 5) = 5 ∧
      ∀ d, d < 32 → dchpri_index 5 = dchpri_index d → 5 = d) :=
  ⟨by decide, dchpri_index_involution 5 (by decide)⟩

/-- Claim C7 (amended): on the eDMA generation, `error_status()` reads the
controller's single global error-status register — the same register for
every channel; on the eDMA3/eDMA4 generations it instead reads the
channel's own per-channel `CHn_ES` register. -/
theorem error_status_per_generation (i : Nat) (s : DmaState)
    (s3 : Edma3State) (s4 : Edma4State) :
    channel_error_status s = { es := s.ES } ∧
    edma34_error_status i (.eDMA3 s3) = { es := (s3.TCD34 i).ES } ∧
    edma34_error_status i (.eDMA4 s4) = { es := (s4.TCD34 i).ES } :=
  ⟨rfl, rfl, rfl⟩

/-- Counterexample to claim C7 as stated: on eDMA3 (and eDMA4),
`error_status()` reads the per-channel `CHn_ES` register, not the global
`ES` register — here channel 0's register holds 7 while the global register
holds 5. -/
theorem error_status_not_global_on_edma34 :
    edma34_error_status 0 (.eDMA3 edma3_state_distinct) ≠
      { es := edma3_state_distinct.ES } := by decide

/-- Claim C8: `is_hardware_signaling()` reads bit `i` of the single
hardware-request status register on the single-register generations (eDMA,
eDMA3); on eDMA4 it reads bit `i` of `HRS_LOW` for `i < 32` and bit
`i - 32` of `HRS_HIGH` for `32 ≤ i < 64`. -/
theorem is_hardware_signaling_split (i : Nat) (s : DmaState)
    (s3 : Edma3State) (s4 : Edma4State) :
    channel_is_hardware_signaling i s = s.HRS.testBit i ∧
    edma34_is_hardware_signaling i (.eDMA3 s3) = some (s3.HRS.testBit i) ∧
    (i < 32 → edma34_is_hardware_signaling i (.eDMA4 s4) =
      some (s4.HRS_LOW.testBit i)) ∧
    (32 ≤ i → i < 64 → edma34_is_hardware_signaling i (.eDMA4 s4) =
      some (s4.HRS_HIGH.testBit (i - 32))) := by
  refine ⟨land_shiftLeft_ne_zero _ _, ?_, ?_, ?_⟩
  · show some ((s3.HRS &&& (1 <<< i)) != 0) = _
    rw [land_shiftLeft_ne_zero]
  · intro h
    show (if i < 32 then some ((s4.HRS_LOW &&& (1 <<< i)) != 0)
      else if 32 ≤ i ∧ i < 64 then some ((s4.HRS_HIGH &&& (1 <<< (i - 32))) != 0)
      else none) = some (s4.HRS_LOW.testBit i)
    rw [if_pos h, land_shiftLeft_ne_zero]
  · intro h1 h2
    show (if i < 32 then some ((s4.HRS_LOW &&& (1 <<< i)) != 0)
      else if 32 ≤ i ∧ i < 64 then some ((s4.HRS_HIGH &&& (1 <<< (i - 32))) != 0)
      else none) = some (s4.HRS_HIGH.testBit (i - 32))
    rw [if_neg (by omega : ¬ i < 32), if_pos ⟨h1, h2⟩, land_shiftLeft_ne_zero]

/-- Witness for claim C8 at channel 40 on eDMA4 (high-half register). -/
theorem is_hardware_signaling_split_witness :
    32 ≤ 40 ∧ 40 < 64 ∧
    edma34_is_hardware_signaling 40 (.eDMA4 edma4_state_hrs) =
      some (edma4_state_hrs.HRS_HIGH.testBit 8) :=
  ⟨by decide, by decide,
    (is_hardware_signaling_split 40 dma_state_zero edma3_state_hrs edma4_state_hrs).2.2.2
      (by decide) (by decide)⟩

/-- Claim C6: configuring the channel multiplexer with the `Enable` variant
and the periodic flag set panics (modelled as `none`) exactly when the
channel index is 4 or higher, and for every index in `0..3` writes the
enable bit, the trigger bit, and the source bits into the channel's
configuration register. This is the behavior of the generation that defines
the low-4-channel restriction (src/channel.rs; src/channel/edma.rs has the
identical logic). -/
theorem set_channel_configuration_periodic (i source : Nat) (s : DmaState) :
    (4 ≤ i → channel_set_channel_configuration i (.Enable source true) s = none) ∧
    (i < 4 →
      channel_set_channel_configuration i (.Enable source true) s =
        some { s with chcfg := upd s.chcfg i (source ||| ENBL ||| TRIG) } ∧
      (source ||| ENBL ||| TRIG).testBit 31 = true ∧
      (source ||| ENBL ||| TRIG).testBit 30 = true ∧
      ∀ b, b < 29 → (source ||| ENBL ||| TRIG).testBit b = source.testBit b) := by
  have hred : channel_set_channel_configuration i (.Enable source true) s =
      if i < 4 then some { s with chcfg := upd s.chcfg i (source ||| ENBL ||| TRIG) }
      else none := rfl
  constructor
  · intro h4
    rw [hred, if_neg (by omega)]
  · intro h4
    refine ⟨by rw [hred, if_pos h4], ?_, ?_, ?_⟩
    · rw [Nat.testBit_or, Nat.testBit_or]
      have hE : ENBL.testBit 31 = true := by decide
      rw [hE]
      simp
    · rw [Nat.testBit_or]
      have hT : TRIG.testBit 30 = true := by decide
      rw [hT]
      simp
    · intro b hb
      rw [Nat.testBit_or, Nat.testBit_or]
      have h1 : ENBL.testBit b = false := by
        show Nat.testBit (1 <<< 31) b = false
        rw [Nat.shiftLeft_eq, Nat.one_mul]
        exact Nat.testBit_two_pow_of_ne (by omega)
      have h2 : TRIG.testBit b = false := by
        show Nat.testBit (1 <<< 30) b = false
        rw [Nat.shiftLeft_eq, Nat.one_mul]
        exact Nat.testBit_two_pow_of_ne (by omega)
      rw [h1, h2]
      simp

/-- Witness for claim C6 at channel 2 (succeeds) and channel 5 (panics),
request source 9. -/
theorem set_channel_configuration_periodic_witness :
    ((2 : Nat) < 4 ∧
      channel_set_channel_configuration 2 (.Enable 9 true) dma_state_zero =
        some { dma_state_zero with chcfg := upd dma_state_zero.chcfg 2 (9 ||| ENBL ||| TRIG) }) ∧
    (4 ≤ 5 ∧
      channel_set_channel_configuration 5 (.Enable 9 true) dma_state_zero = none) :=
  ⟨⟨by decide, ((set_channel_configuration_periodic 2 9 dma_state_zero).2 (by decide)).1⟩,
    ⟨by decide, (set_channel_configuration_periodic 5 9 dma_state_zero).1 (by decide)⟩⟩

set_option maxHeartbeats 4000000 in
/-- Definitional reduction of `peripheral_transfer`: the branch condition is
the channel's `ERR` bit in the incoming state (no setup step writes `ERR`),
and the captured error status is the incoming global `ES` value (no step
writes `ES`). Both sides are definitionally equal. -/
theorem peripheral_transfer_reduce (sz i sig addr ptr len : Nat) (s0 : DmaState) :
    peripheral_transfer sz i sig addr ptr len s0 =
      (if (s0.ERR &&& (1 <<< i)) != 0 then
        (.error { es := s0.ES },
          channel_clear_error i (channel_disable i
            (channel_enable i (channel_set_transfer_iterations i (as_u16 len)
              (channel_set_minor_loop_elements sz i 1
                (channel_set_destination_transfer sz i (transfer_hardware addr)
                  (channel_set_source_transfer sz i (buffer_linear sz ptr len)
                    (set_trigger_from_hardware i (some sig) s0))))))),
          [.enablePeripheral, .setTriggerFromHardware i (some sig),
           .setSourceTransfer i (buffer_linear sz ptr len),
           .setDestinationTransfer i (transfer_hardware addr),
           .setMinorLoopElements i 1, .setTransferIterations i (as_u16 len),
           .compilerFence, .enable i, .disable i, .readErrorStatus i, .clearError i])
      else
        (.ok (),
          channel_enable i (channel_set_transfer_iterations i (as_u16 len)
            (channel_set_minor_loop_elements sz i 1
              (channel_set_destination_transfer sz i (transfer_hardware addr)
                (channel_set_source_transfer sz i (buffer_linear sz ptr len)
                  (set_trigger_from_hardware i (some sig) s0))))),
          [.enablePeripheral, .setTriggerFromHardware i (some sig),
           .setSourceTransfer i (buffer_linear sz ptr len),
           .setDestinationTransfer i (transfer_hardware addr),
           .setMinorLoopElements i 1, .setTransferIterations i (as_u16 len),
           .compilerFence, .enable i])) := rfl

set_option maxHeartbeats 4000000 in
/-- Definitional reduction of `peripheral_receive`, as for
`peripheral_transfer`. -/
theorem peripheral_receive_reduce (sz i sig addr ptr len : Nat) (s0 : DmaState) :
    peripheral_receive sz i sig addr ptr len s0 =
      (if (s0.ERR &&& (1 <<< i)) != 0 then
        (.error { es := s0.ES },
          channel_clear_error i (channel_disable i
            (channel_enable i (channel_set_transfer_iterations i (as_u16 len)
              (channel_set_minor_loop_elements sz i 1
                (channel_set_destination_transfer sz i (buffer_linear sz ptr len)
                  (channel_set_source_transfer sz i (transfer_hardware addr)
                    (set_trigger_from_hardware i (some sig) s0))))))),
          [.enablePeripheral, .setTriggerFromHardware i (some sig),
           .setSourceTransfer i (transfer_hardware addr),
           .setDestinationTransfer i (buffer_linear sz ptr len),
           .setMinorLoopElements i 1, .setTransferIterations i (as_u16 len),
           .compilerFence, .enable i, .disable i, .readErrorStatus i, .clearError i])
      else
        (.ok (),
          channel_enable i (channel_set_transfer_iterations i (as_u16 len)
            (channel_set_minor_loop_elements sz i 1
              (channel_set_destination_transfer sz i (buffer_linear sz ptr len)
                (channel_set_source_transfer sz i (transfer_hardware addr)
                  (set_trigger_from_hardware i (some sig) s0))))),
          [.enablePeripheral, .setTriggerFromHardware i (some sig),
           .setSourceTransfer i (transfer_hardware addr),
           .setDestinationTransfer i (buffer_linear sz ptr len),
           .setMinorLoopElements i 1, .setTransferIterations i (as_u16 len),
           .compilerFence, .enable i])) := rfl

set_option maxHeartbeats 4000000 in
/-- Claim C2: after enabling the channel, if the immediately-following
error-status read shows an error, `peripheral_transfer` (and symmetrically
`peripheral_receive`) disables the channel, captures the decoded error
status (the global `ES` value, which none of the setup steps modify),
clears the hardware error flag, and returns the captured status as the
failure; otherwise it returns success, meaning the transfer was scheduled.
The trace contains exactly one enable step — the helper never retries. -/
theorem peripheral_error_handling (sz i sig addr ptr len : Nat) (s0 : DmaState)
    (hi : i < 32) :
    (∀ res s' tr, peripheral_transfer sz i sig addr ptr len s0 = (res, s', tr) →
      (if channel_is_error i s0 then
        res = .error { es := s0.ES } ∧
        channel_is_enabled i s' = false ∧
        channel_is_error i s' = false
      else
        res = .ok () ∧ channel_is_enabled i s' = true) ∧
      (tr.filter isEnableEvent).length = 1) ∧
    (∀ res s' tr, peripheral_receive sz i sig addr ptr len s0 = (res, s', tr) →
      (if channel_is_error i s0 then
        res = .error { es := s0.ES } ∧
        channel_is_enabled i s' = false ∧
        channel_is_error i s' = false
      else
        res = .ok () ∧ channel_is_enabled i s' = true) ∧
      (tr.filter isEnableEvent).length = 1) := by
  have henb : ∀ r : Nat, ((setBit r i &&& (1 <<< i)) != 0) = true := by
    intro r
    rw [land_shiftLeft_ne_zero, testBit_setBit_self]
  have hdis : ∀ r : Nat, ((clrBit (setBit r i) i &&& (1 <<< i)) != 0) = false := by
    intro r
    rw [land_shiftLeft_ne_zero, testBit_clrBit_self _ _ hi]
  have hclr : ∀ r : Nat, ((clrBit r i &&& (1 <<< i)) != 0) = false := by
    intro r
    rw [land_shiftLeft_ne_zero, testBit_clrBit_self _ _ hi]
  have hcond : channel_is_error i s0 = ((s0.ERR &&& (1 <<< i)) != 0) := rfl
  constructor
  · intro res s' tr heq
    rw [peripheral_transfer_reduce] at heq
    cases hb : (s0.ERR &&& (1 <<< i)) != 0
    · rw [hb] at heq
      simp only [Bool.false_eq_true, if_false] at heq
      cases heq
      rw [hcond, hb]
      simp only [Bool.false_eq_true, if_false]
      exact ⟨⟨trivial, henb s0.ERQ⟩, rfl⟩
    · rw [hb] at heq
      simp only [if_true] at heq
      cases heq
      rw [hcond, hb]
      simp only [if_true]
      exact ⟨⟨trivial, hdis s0.ERQ, hclr s0.ERR⟩, rfl⟩
  · intro res s' tr heq
    rw [peripheral_receive_reduce] at heq
    cases hb : (s0.ERR &&& (1 <<< i)) != 0
    · rw [hb] at heq
      simp only [Bool.false_eq_true, if_false] at heq
      cases heq
      rw [hcond, hb]
      simp only [Bool.false_eq_true, if_false]
      exact ⟨⟨trivial, henb s0.ERQ⟩, rfl⟩
    · rw [hb] at heq
      simp only [if_true] at heq
      cases heq
      rw [hcond, hb]
      simp only [if_true]
      exact ⟨⟨trivial, hdis s0.ERQ, hclr s0.ERR⟩, rfl⟩

theorem upd_self {α : Type} (f : Nat → α) (i : Nat) (v : α) : upd f i v i = v := by
  simp [upd]

set_option maxHeartbeats 4000000 in
/-- Claim C5: both orchestration helpers perform exactly these steps in this
order: enable the peripheral's DMA request, configure the channel's mux for
hardware triggering from the peripheral's request signal, install the
linear-buffer descriptor and the hardware-register descriptor on the correct
sides (buffer as source for transmit, buffer as destination for receive),
set the minor loop to one element, set the major-loop iteration count to the
buffer length, issue a memory barrier, and only then enable the channel (the
error check can only append steps after the enable). The installed values
are visible in the resulting state: the mux register holds the enable bit
with the request source, and the channel's TCD holds the buffer address on
the buffer side, the register address on the hardware side, one element's
bytes per minor loop, and the length in both major-loop counters. -/
theorem peripheral_step_order (sz i sig addr ptr len : Nat) (s0 : DmaState)
    (hsz : 0 < sz) (hsz16 : sz < 2 ^ 15) (hlen : len < 2 ^ 16) :
    (∃ tail,
      (peripheral_transfer sz i sig addr ptr len s0).2.2 =
        [.enablePeripheral, .setTriggerFromHardware i (some sig),
         .setSourceTransfer i (buffer_linear sz ptr len),
         .setDestinationTransfer i (transfer_hardware addr),
         .setMinorLoopElements i 1, .setTransferIterations i len,
         .compilerFence, .enable i] ++ tail) ∧
    ((peripheral_transfer sz i sig addr ptr len s0).2.1.chcfg i = sig ||| ENBL ∧
     ((peripheral_transfer sz i sig addr ptr len s0).2.1.TCD i).SADDR = ptr % 2 ^ 32 ∧
     ((peripheral_transfer sz i sig addr ptr len s0).2.1.TCD i).DADDR = addr % 2 ^ 32 ∧
     ((peripheral_transfer sz i sig addr ptr len s0).2.1.TCD i).NBYTES = sz ∧
     ((peripheral_transfer sz i sig addr ptr len s0).2.1.TCD i).CITER = len ∧
     ((peripheral_transfer sz i sig addr ptr len s0).2.1.TCD i).BITER = len) ∧
    (∃ tail,
      (peripheral_receive sz i sig addr ptr len s0).2.2 =
        [.enablePeripheral, .setTriggerFromHardware i (some sig),
         .setSourceTransfer i (transfer_hardware addr),
         .setDestinationTransfer i (buffer_linear sz ptr len),
         .setMinorLoopElements i 1, .setTransferIterations i len,
         .compilerFence, .enable i] ++ tail) ∧
    ((peripheral_receive sz i sig addr ptr len s0).2.1.chcfg i = sig ||| ENBL ∧
     ((peripheral_receive sz i sig addr ptr len s0).2.1.TCD i).SADDR = addr % 2 ^ 32 ∧
     ((peripheral_receive sz i sig addr ptr len s0).2.1.TCD i).DADDR = ptr % 2 ^ 32 ∧
     ((peripheral_receive sz i sig addr ptr len s0).2.1.TCD i).NBYTES = sz ∧
     ((peripheral_receive sz i sig addr ptr len s0).2.1.TCD i).CITER = len ∧
     ((peripheral_receive sz i sig addr ptr len s0).2.1.TCD i).BITER = len) := by
  have hu16 : as_u16 len = len := Nat.mod_eq_of_lt hlen
  cases hb : (s0.ERR &&& (1 <<< i)) != 0
  case false =>
    rw [peripheral_transfer_reduce, peripheral_receive_reduce, hb]
    simp only [Bool.false_eq_true, if_false]
    refine ⟨⟨[], ?_⟩, ⟨?_, ?_, ?_, ?_, ?_, ?_⟩, ⟨[], ?_⟩, ⟨?_, ?_, ?_, ?_, ?_, ?_⟩⟩ <;>
      simp only [hu16, upd_self, List.append_nil, channel_enable,
        channel_set_transfer_iterations, channel_set_minor_loop_elements,
        channel_set_minor_loop_bytes, channel_set_destination_transfer,
        channel_set_source_transfer, set_trigger_from_hardware,
        channel_disable, channel_clear_error, buffer_linear,
        transfer_hardware] <;>
      first
        | rfl
        | omega
  case true =>
    rw [peripheral_transfer_reduce, peripheral_receive_reduce, hb]
    simp only [if_true]
    refine ⟨⟨[.disable i, .readErrorStatus i, .clearError i], ?_⟩,
      ⟨?_, ?_, ?_, ?_, ?_, ?_⟩,
      ⟨[.disable i, .readErrorStatus i, .clearError i], ?_⟩,
      ⟨?_, ?_, ?_, ?_, ?_, ?_⟩⟩ <;>
      simp only [hu16, upd_self, List.append_nil, channel_enable,
        channel_set_transfer_iterations, channel_set_minor_loop_elements,
        channel_set_minor_loop_bytes, channel_set_destination_transfer,
        channel_set_source_transfer, set_trigger_from_hardware,
        channel_disable, channel_clear_error, buffer_linear,
        transfer_hardware] <;>
      first
        | rfl
        | omega

/-- Witness for claim C2 at channel 0 of a state whose channel-0 error bit
is set: scheduling fails with the captured global status, and the channel
ends up disabled with its error flag cleared. -/
theorem peripheral_error_handling_witness :
    0 < 32 ∧
    ((if channel_is_error 0 dma_state_err0 then
        (peripheral_transfer 4 0 9 1000 2000 8 dma_state_err0).1 =
          .error { es := dma_state_err0.ES } ∧
        channel_is_enabled 0 (peripheral_transfer 4 0 9 1000 2000 8 dma_state_err0).2.1 =
          false ∧
        channel_is_error 0 (peripheral_transfer 4 0 9 1000 2000 8 dma_state_err0).2.1 =
          false
      else
        (peripheral_transfer 4 0 9 1000 2000 8 dma_state_err0).1 = .ok () ∧
        channel_is_enabled 0 (peripheral_transfer 4 0 9 1000 2000 8 dma_state_err0).2.1 =
          true) ∧
      ((peripheral_transfer 4 0 9 1000 2000 8 dma_state_err0).2.2.filter
          isEnableEvent).length = 1) :=
  ⟨by decide,
    (peripheral_error_handling 4 0 9 1000 2000 8 dma_state_err0 (by decide)).1
      (peripheral_transfer 4 0 9 1000 2000 8 dma_state_err0).1
      (peripheral_transfer 4 0 9 1000 2000 8 dma_state_err0).2.1
      (peripheral_transfer 4 0 9 1000 2000 8 dma_state_err0).2.2 rfl⟩

/-- Witness for claim C5 at channel 1 with element size 4, signal 9,
register address 1000, buffer pointer 2000, length 8. -/
theorem peripheral_step_order_witness :
    0 < 4 ∧ (4 : Nat) < 2 ^ 15 ∧ (8 : Nat) < 2 ^ 16 ∧
    ∃ tail,
      (peripheral_transfer 4 1 9 1000 2000 8 dma_state_zero).2.2 =
        [.enablePeripheral, .setTriggerFromHardware 1 (some 9),
         .setSourceTransfer 1 (buffer_linear 4 2000 8),
         .setDestinationTransfer 1 (transfer_hardware 1000),
         .setMinorLoopElements 1 1, .setTransferIterations 1 8,
         .compilerFence, .enable 1] ++ tail :=
  ⟨by decide, by decide, by decide,
    (peripheral_step_order 4 1 9 1000 2000 8 dma_state_zero
      (by decide) (by decide) (by decide)).1⟩
